import Mathlib

/- Shallow embedding of src/secure_camera_server/server.py.

Modelling conventions:
- The PBKDF2-HMAC-SHA256 primitive from Python's hashlib (an external library
  collaborator) is an abstract parameter `kdf : String → String → String`
  mapping (secret, salt) to the hex digest string, used exactly where the
  source calls hashlib.pbkdf2_hmac(...).hex().
- SQLite tables (users, recording_sessions, login_attempts and the two
  legacy backup tables) are lists of rows; `INSERT` appends, `SELECT`
  filters/finds, `UPDATE`/`DELETE` map/filter.  The persistent store is a
  reliable collaborator (spec section 6), so its operations do not fail.
- The file system (the blob-store collaborator) is a list of user folders,
  session folders and chunk files.  Fallible blob operations (file.save,
  shutil.rmtree) take an explicit success flag, covering the failure paths
  the source handles with try/except.
- Timestamps are integers counting seconds; datetime.now() is an explicit
  `now` parameter and timedelta(days=1) is 86400.
- Python's str.lower(), str.zfill(), str.endswith() and int() are modelled
  on the underlying character lists so that they compute by kernel
  reduction (ASCII case mapping, which is what the data in this server
  uses).  Inputs are taken post-strip().
- update_last_login is a best-effort metadata write on the success path
  only; no claim mentions it, so it is dropped from the returned state. -/

/-- Python str.lower(), as the character-wise ASCII case map. -/
def pyLower (s : String) : String := String.mk (s.data.map Char.toLower)

/-- Python str.endswith(suffix). -/
def pyEndsWith (s suffix : String) : Bool := decide (suffix.data <:+ s.data)

/-- Digit-string to number; none when empty or a non-digit occurs. -/
def digitsToNat (cs : List Char) : Option Nat :=
  if cs ≠ [] ∧ cs.all (·.isDigit) then
    some (cs.foldl (fun acc c => acc * 10 + (c.toNat - 48)) 0)
  else none

/-- Python int(s) on a stripped string: optional sign, then digits. -/
def pyStrToInt (s : String) : Option Int :=
  match s.data with
  | '-' :: cs => (digitsToNat cs).map (fun n => -(n : Int))
  | '+' :: cs => (digitsToNat cs).map (fun n => (n : Int))
  | cs => (digitsToNat cs).map (fun n => (n : Int))

/-- Python str.zfill(width): pad with zeros on the left, after any sign. -/
def pyZfill (s : String) (width : Nat) : String :=
  if width ≤ s.data.length then s
  else
    match s.data with
    | c :: cs =>
      if c = '-' ∨ c = '+' then
        String.mk (c :: (List.replicate (width - s.data.length) '0' ++ cs))
      else String.mk (List.replicate (width - s.data.length) '0' ++ s.data)
    | [] => String.mk (List.replicate width '0')

structure User where
  user_id : String
  email : String
  full_name : String
  password_hash : String
  salt : String
  created_at : Int
  subscription_tier : String
  deriving DecidableEq

structure LoginAttempt where
  email : String
  attempt_time : Int
  success : Bool
  ip_address : Option String
  deriving DecidableEq

/-- hash_password(password, salt): the PBKDF2 hex digest plus the salt used.
The salt=None branch draws a fresh random salt; callers of that branch pass
the generated salt explicitly here. -/
def hash_password (kdf : String → String → String) (password salt : String) : String × String :=
  (kdf password salt, salt)

/-- verify_password: recompute the digest with the stored salt, exact compare. -/
def verify_password (kdf : String → String → String) (password password_hash salt : String) : Bool :=
  (hash_password kdf password salt).1 == password_hash

/-- get_user_by_email_password: row lookup by email, then digest comparison;
None both when the email is unknown and when the digest differs. -/
def get_user_by_email_password (users : List User) (kdf : String → String → String)
    (email password : String) : Option User :=
  match users.find? (fun u => u.email == email) with
  | some u => if verify_password kdf password u.password_hash u.salt then some u else none
  | none => none

/-- Failed login attempts for an email within the trailing 24 hours, the
count shared by check_rate_limit and get_remaining_attempts (both lowercase
the email and filter success = 0, attempt_time > now - 1 day). -/
def failedAttemptsInWindow (attempts : List LoginAttempt) (email : String) (now : Int) : Nat :=
  (attempts.filter fun a =>
    a.email == pyLower email && decide (now - 86400 < a.attempt_time) && !a.success).length

/-- check_rate_limit: true iff failed attempts in the window are below 5. -/
def check_rate_limit (attempts : List LoginAttempt) (email : String) (now : Int) : Bool :=
  decide (failedAttemptsInWindow attempts email now < 5)

/-- record_login_attempt: append one attempt row (email stored lowercased). -/
def record_login_attempt (attempts : List LoginAttempt) (email : String) (success : Bool)
    (now : Int) (ip : Option String) : List LoginAttempt :=
  attempts ++ [⟨pyLower email, now, success, ip⟩]

/-- get_remaining_attempts: max(0, 5 - failed attempts in window). -/
def get_remaining_attempts (attempts : List LoginAttempt) (email : String) (now : Int) : Int :=
  max 0 (5 - (failedAttemptsInWindow attempts email now : Int))

inductive LoginResult where
  /-- 400: missing email or password. -/
  | missingFields
  /-- 429: rate limited before any credential comparison. -/
  | rateLimited (remaining : Int)
  /-- 200: the user summary echoed on success. -/
  | success (user_id email full_name : String) (created_at : Int)
  /-- 401: invalid email or password; the flag is the `rate_limited` field
  set when no attempts remain. -/
  | unauthorized (locked : Bool) (remaining : Int)
  deriving DecidableEq

/-- The authentication phase of login_user: everything after the rate-limit
gate (authenticate, record the outcome, report remaining attempts). -/
def loginAuthPhase (users : List User) (kdf : String → String → String)
    (attempts : List LoginAttempt) (emailL password : String) (now : Int)
    (ip : Option String) : LoginResult × List LoginAttempt :=
  match get_user_by_email_password users kdf emailL password with
  | some u =>
    (.success u.user_id u.email u.full_name u.created_at,
     record_login_attempt attempts emailL true now ip)
  | none =>
    let attempts2 := record_login_attempt attempts emailL false now ip
    let remaining := get_remaining_attempts attempts2 emailL now
    if remaining == 0 then (.unauthorized true 0, attempts2)
    else (.unauthorized false remaining, attempts2)

/-- login_user: lowercase the email, check the rate limit (skipping
authentication entirely when over it), then authenticate and record. -/
def login_user (users : List User) (kdf : String → String → String)
    (attempts : List LoginAttempt) (email password : String) (now : Int)
    (ip : Option String) : LoginResult × List LoginAttempt :=
  let emailL := pyLower email
  if emailL == "" || password == "" then (.missingFields, attempts)
  else if !(check_rate_limit attempts emailL now) then
    (.rateLimited (get_remaining_attempts attempts emailL now), attempts)
  else loginAuthPhase users kdf attempts emailL password now ip

/-- Appending a failed attempt for the same (lowercased) email at the query
time bumps the windowed failure count by one. -/
lemma failedAttempts_record_failure (attempts : List LoginAttempt) (emailL : String)
    (now : Int) (ip : Option String) :
    failedAttemptsInWindow (record_login_attempt attempts emailL false now ip) emailL now
      = failedAttemptsInWindow attempts emailL now + 1 := by
  have hw : (now - 86400 < now) := by omega
  simp [failedAttemptsInWindow, record_login_attempt, List.filter_append, hw]

/-- Appending a successful attempt never changes any windowed failure count. -/
lemma failedAttempts_record_success (attempts : List LoginAttempt) (e email : String)
    (now2 now : Int) (ip : Option String) :
    failedAttemptsInWindow (record_login_attempt attempts e true now2 ip) email now
      = failedAttemptsInWindow attempts email now := by
  simp [failedAttemptsInWindow, record_login_attempt, List.filter_append]

/-- C9: the password digest round-trips: verifying a passcode against the
digest hash_password produced with the stored salt succeeds; verifying
against any tampered digest fails; and verifying against a digest computed
with a different salt fails whenever the two salts give distinct digests
(the collision-freedom the source relies on for PBKDF2). -/
theorem hash_verify_roundtrip (kdf : String → String → String) (p s s' h : String) :
    verify_password kdf p (hash_password kdf p s).1 s = true ∧
    (h ≠ (hash_password kdf p s).1 → verify_password kdf p h s = false) ∧
    (kdf p s ≠ kdf p s' → verify_password kdf p (hash_password kdf p s').1 s = false) := by
  refine ⟨by simp [verify_password, hash_password], ?_, ?_⟩
  · intro hne
    simp only [verify_password, hash_password, beq_eq_false_iff_ne, ne_eq]
    exact fun e => hne e.symm
  · intro hne
    simpa [verify_password, hash_password, beq_eq_false_iff_ne] using hne

/-- A concrete key-derivation function for witnesses. -/
def concatKdf : String → String → String := fun p s => p ++ s

theorem hash_verify_roundtrip_witness :
    verify_password concatKdf "123456" "abcd" "s1" = false ∧
    verify_password concatKdf "123456" (hash_password concatKdf "123456" "s2").1 "s1" = false := by
  have h := hash_verify_roundtrip concatKdf "123456" "s1" "s2" "abcd"
  exact ⟨h.2.1 (by decide), h.2.2 (by decide)⟩

/-- C8: remaining(email) is max(0, 5 - failed attempts in the trailing
24-hour window), and recording a successful attempt neither increases the
windowed failure count nor resets it, leaving remaining unchanged. -/
theorem remaining_attempts_spec (attempts : List LoginAttempt) (email e2 : String)
    (now now2 : Int) (ip : Option String) :
    get_remaining_attempts attempts email now
        = max 0 (5 - (failedAttemptsInWindow attempts email now : Int)) ∧
    failedAttemptsInWindow (record_login_attempt attempts e2 true now2 ip) email now
        = failedAttemptsInWindow attempts email now ∧
    get_remaining_attempts (record_login_attempt attempts e2 true now2 ip) email now
        = get_remaining_attempts attempts email now := by
  refine ⟨rfl, failedAttempts_record_success .., ?_⟩
  simp [get_remaining_attempts, failedAttempts_record_success]

/-- C1: with 5 or more failed attempts in the trailing window the login
returns the 429 rate-limited response with remaining = 0 and does not touch
the attempt log; the response is a constant independent of the user store
and of the key-derivation function, so the stored digest is never
recomputed or compared.  With fewer than 5 failures login proceeds to the
authentication phase. -/
theorem login_rate_limit_gate (users : List User) (kdf : String → String → String)
    (attempts : List LoginAttempt) (email password : String) (now : Int) (ip : Option String)
    (hmail : pyLower email ≠ "") (hpw : password ≠ "") :
    (5 ≤ failedAttemptsInWindow attempts (pyLower email) now →
      login_user users kdf attempts email password now ip = (.rateLimited 0, attempts)) ∧
    (failedAttemptsInWindow attempts (pyLower email) now < 5 →
      login_user users kdf attempts email password now ip
        = loginAuthPhase users kdf attempts (pyLower email) password now ip) := by
  have hcond : (pyLower email == "" || password == "") = false := by
    simp [hmail, hpw]
  constructor
  · intro h5
    have hrl : check_rate_limit attempts (pyLower email) now = false := by
      simp [check_rate_limit]; omega
    have hrem : get_remaining_attempts attempts (pyLower email) now = 0 := by
      simp only [get_remaining_attempts]
      omega
    simp [login_user, hcond, hrl, hrem]
  · intro hlt
    have hrl : check_rate_limit attempts (pyLower email) now = true := by
      simp [check_rate_limit]; omega
    simp [login_user, hcond, hrl]

theorem login_rate_limit_gate_witness :
    login_user [] concatKdf
        (List.replicate 5 ⟨"a@b.com", 0, false, none⟩) "a@b.com" "123456" 0 none
      = (.rateLimited 0, List.replicate 5 ⟨"a@b.com", 0, false, none⟩) :=
  (login_rate_limit_gate [] concatKdf
      (List.replicate 5 ⟨"a@b.com", 0, false, none⟩) "a@b.com" "123456" 0 none
      (by decide) (by decide)).1 (by decide)

/-- C2: a failing login with an unknown email and a failing login with a
known email but wrong passcode produce identical observable results
whenever the two emails carry equal windowed failure counts: the outcome
never depends on which of the two causes made authentication fail. -/
theorem login_no_existence_leak (users : List User) (kdf : String → String → String)
    (attempts : List LoginAttempt) (e1 p1 e2 p2 : String) (now : Int) (ip : Option String)
    (hm1 : pyLower e1 ≠ "") (hp1 : p1 ≠ "") (hm2 : pyLower e2 ≠ "") (hp2 : p2 ≠ "")
    (hunknown : ∀ u ∈ users, u.email ≠ pyLower e1)
    (_hknown : ∃ u ∈ users, u.email = pyLower e2)
    (hwrong : get_user_by_email_password users kdf (pyLower e2) p2 = none)
    (hcount : failedAttemptsInWindow attempts (pyLower e1) now
        = failedAttemptsInWindow attempts (pyLower e2) now) :
    (login_user users kdf attempts e1 p1 now ip).1
      = (login_user users kdf attempts e2 p2 now ip).1 := by
  have hc1 : (pyLower e1 == "" || p1 == "") = false := by simp [hm1, hp1]
  have hc2 : (pyLower e2 == "" || p2 == "") = false := by simp [hm2, hp2]
  have hfind1 : users.find? (fun u => u.email == pyLower e1) = none := by
    rw [List.find?_eq_none]
    intro u hu
    simp [hunknown u hu]
  have hghost : get_user_by_email_password users kdf (pyLower e1) p1 = none := by
    simp [get_user_by_email_password, hfind1]
  simp only [login_user, hc1, hc2, Bool.false_eq_true, if_false,
    check_rate_limit, hcount]
  by_cases hlim : failedAttemptsInWindow attempts (pyLower e2) now < 5
  · simp only [hlim, loginAuthPhase, hghost, hwrong, get_remaining_attempts,
      failedAttempts_record_failure, hcount]
    split
    · rfl
    · split <;> rfl
  · simp only [hlim, get_remaining_attempts, hcount]
    simp

theorem login_no_existence_leak_witness :
    (login_user [⟨"u1", "known@x.com", "K", "HASH", "s1", 0, "free"⟩] concatKdf []
        "ghost@x.com" "111111" 0 none).1
      = (login_user [⟨"u1", "known@x.com", "K", "HASH", "s1", 0, "free"⟩] concatKdf []
        "known@x.com" "999999" 0 none).1 :=
  login_no_existence_leak [⟨"u1", "known@x.com", "K", "HASH", "s1", 0, "free"⟩] concatKdf []
    "ghost@x.com" "111111" "known@x.com" "999999" 0 none
    (by decide) (by decide) (by decide) (by decide)
    (by decide) ⟨⟨"u1", "known@x.com", "K", "HASH", "s1", 0, "free"⟩, by decide, by decide⟩
    (by decide) (by decide)

/- ------------------------------------------------------------------
Session / chunk registry: recording_sessions rows, the per-user upload
directories, and the chunk files inside them (upload_video, delete_video,
download_chunk, storage accounting). -/

structure SessionRow where
  user_id : String
  session_id : String
  created_at : Int
  chunk_count : Int
  deriving DecidableEq

structure ChunkFile where
  user_id : String
  session_id : String
  filename : String
  content : String
  deriving DecidableEq

/-- The server-side state the session subsystem touches: the users table,
the recording_sessions table, and the file system (user directories,
session directories, chunk files). -/
structure ServerState where
  users : List User
  sessions : List SessionRow
  userFolders : List String
  sessionFolders : List (String × String)
  files : List ChunkFile
  deriving DecidableEq

/-- The WHERE user_id = ? AND session_id = ? predicate on session rows. -/
def keyP (u s : String) : SessionRow → Bool :=
  fun r => r.user_id == u && r.session_id == s

/-- Number of recording_sessions rows for one (user_id, session_id) pair. -/
def rowCount (st : ServerState) (u s : String) : Nat :=
  (st.sessions.filter (keyP u s)).length

/-- chunk_count as a SELECT would report it: the first matching row's
counter, 0 (the column default) when no row exists. -/
def dbChunkCount (st : ServerState) (u s : String) : Int :=
  match st.sessions.find? (keyP u s) with
  | some r => r.chunk_count
  | none => 0

/-- The filename written for a chunk:
chunk_{chunk_number.zfill(3)}_{timestamp}.mov. -/
def chunkFilename (chunkNumber timestamp : String) : String :=
  "chunk_" ++ pyZfill chunkNumber 3 ++ "_" ++ timestamp ++ ".mov"

/-- The SET chunk_count = MAX(chunk_count, ?) row transformer. -/
def updChunk (uid sid : String) (i : Int) (r : SessionRow) : SessionRow :=
  if keyP uid sid r then { r with chunk_count := max r.chunk_count i } else r

/-- os.makedirs(session_folder) plus the INSERT OR IGNORE of the session
row, executed only when the session directory does not exist yet (makedirs
also creates the parent user directory). -/
def ensureSessionFolder (st : ServerState) (uid sid : String) (now : Int) : ServerState :=
  if (uid, sid) ∈ st.sessionFolders then st
  else
    { st with
      userFolders := if uid ∈ st.userFolders then st.userFolders else uid :: st.userFolders,
      sessionFolders := (uid, sid) :: st.sessionFolders,
      sessions := st.sessions ++ [⟨uid, sid, now, 0⟩] }

/-- file.save(filepath): overwrite any file at the same path, add the new
content. -/
def saveChunkFile (files : List ChunkFile) (uid sid fn content : String) : List ChunkFile :=
  files.filter (fun f => !(f.user_id == uid && f.session_id == sid && f.filename == fn))
    ++ [⟨uid, sid, fn, content⟩]

/-- The UPDATE recording_sessions SET chunk_count = MAX(chunk_count, ?)
step; int(chunk_number) raising is swallowed by the source's try/except,
leaving the table unchanged. -/
def bumpChunkCount (st : ServerState) (uid sid cn : String) : ServerState :=
  match pyStrToInt cn with
  | some i => { st with sessions := st.sessions.map (updChunk uid sid i) }
  | none => st

inductive UploadResult where
  | invalidInput (msg : String)
  | unauthorized
  /-- 500: the file write failed. -/
  | ioFailure
  /-- 200 with the stored filename. -/
  | ok (filename session_id chunk_number : String)
  deriving DecidableEq

/-- The post-authentication body of upload_video: ensure the session
directory and row exist, save the chunk (writeOk is the blob-store
success), then bump chunk_count. -/
def recordChunk (st : ServerState) (uid sid cn ts content : String) (now : Int)
    (writeOk : Bool) : UploadResult × ServerState :=
  let st1 := ensureSessionFolder st uid sid now
  let filename := chunkFilename cn ts
  if writeOk then
    (.ok filename sid cn,
     bumpChunkCount { st1 with files := saveChunkFile st1.files uid sid filename content } uid sid cn)
  else (.ioFailure, st1)

/-- upload_video: credential check, input validation, then recordChunk. -/
def upload_video (kdf : String → String → String) (st : ServerState)
    (email password : String) (file : Option String) (sid cn ts : String) (now : Int)
    (writeOk : Bool) : UploadResult × ServerState :=
  let emailL := pyLower email
  if emailL == "" || password == "" then (.invalidInput "Email and password required", st)
  else
    match get_user_by_email_password st.users kdf emailL password with
    | none => (.unauthorized, st)
    | some u =>
      match file with
      | none => (.invalidInput "No video file", st)
      | some content =>
        if sid == "" then (.invalidInput "Session ID required", st)
        else recordChunk st u.user_id sid cn ts content now writeOk

inductive DeleteResult where
  | ok
  | notFound
  | serverError
  deriving DecidableEq

/-- The post-authentication body of delete_video: if the session directory
exists, rmtree it (rmOk is the blob-store success; failure raises before
the DB delete, leaving everything in place), then delete the row(s). -/
def deleteVideo (st : ServerState) (uid sid : String) (rmOk : Bool) : DeleteResult × ServerState :=
  if (uid, sid) ∈ st.sessionFolders then
    if rmOk then
      (.ok,
       { st with
         sessionFolders := st.sessionFolders.filter (fun p => !(p == (uid, sid))),
         files := st.files.filter (fun f => !(f.user_id == uid && f.session_id == sid)),
         sessions := st.sessions.filter (fun r => !(keyP uid sid r)) })
    else (.serverError, st)
  else (.notFound, st)

/-- States reachable through the session-subsystem operations, from a fresh
database (init_database creates recording_sessions empty; registrations may
have provisioned arbitrary users and user directories).  Uploads are taken
post-authentication with an arbitrary user_id, an over-approximation of the
states the authenticated handlers can produce.  The one-time PIN migration
is treated separately (MigState below), per its own handler. -/
inductive Reachable : ServerState → Prop where
  | init (users : List User) (ufolders : List String) :
      Reachable ⟨users, [], ufolders, [], []⟩
  | upload {st : ServerState} (uid sid cn ts content : String) (now : Int) (writeOk : Bool) :
      Reachable st → Reachable (recordChunk st uid sid cn ts content now writeOk).2
  | delete {st : ServerState} (uid sid : String) (rmOk : Bool) :
      Reachable st → Reachable (deleteVideo st uid sid rmOk).2

/-- The state invariant the session subsystem maintains: a session
directory exists exactly when a session row does, rows are unique per
(user_id, session_id), every chunk file sits in an existing session
directory of an existing user directory, and every chunk file is a .mov. -/
structure SessInv (st : ServerState) : Prop where
  le_one : ∀ u s, rowCount st u s ≤ 1
  folder_iff : ∀ u s, ((u, s) ∈ st.sessionFolders ↔ 0 < rowCount st u s)
  file_folder : ∀ f ∈ st.files, (f.user_id, f.session_id) ∈ st.sessionFolders
  file_mov : ∀ f ∈ st.files, pyEndsWith f.filename ".mov" = true
  folder_user : ∀ p ∈ st.sessionFolders, p.1 ∈ st.userFolders

lemma updChunk_user_id (uid sid : String) (i : Int) (r : SessionRow) :
    (updChunk uid sid i r).user_id = r.user_id := by
  unfold updChunk; split <;> rfl

lemma updChunk_session_id (uid sid : String) (i : Int) (r : SessionRow) :
    (updChunk uid sid i r).session_id = r.session_id := by
  unfold updChunk; split <;> rfl

lemma keyP_updChunk (u s uid sid : String) (i : Int) (r : SessionRow) :
    keyP u s (updChunk uid sid i r) = keyP u s r := by
  simp [keyP, updChunk_user_id, updChunk_session_id]

/-- Mapping the chunk-count update over the table keeps every row count. -/
lemma length_filter_map_updChunk (l : List SessionRow) (uid sid : String) (i : Int)
    (u s : String) :
    ((l.map (updChunk uid sid i)).filter (keyP u s)).length = (l.filter (keyP u s)).length := by
  induction l with
  | nil => rfl
  | cons a t ih =>
    simp only [List.map_cons, List.filter_cons, keyP_updChunk]
    split <;> simp [ih]

lemma find?_map_updChunk (l : List SessionRow) (uid sid : String) (i : Int) (u s : String) :
    (l.map (updChunk uid sid i)).find? (keyP u s) = (l.find? (keyP u s)).map (updChunk uid sid i) := by
  induction l with
  | nil => rfl
  | cons a t ih =>
    simp only [List.map_cons, List.find?]
    rw [keyP_updChunk]
    cases h : keyP u s a <;> simp [h, ih]

lemma find?_append_single {α : Type} (l : List α) (a : α) (p : α → Bool) :
    (l ++ [a]).find? p = ((l.find? p).orElse (fun _ => if p a then some a else none)) := by
  induction l with
  | nil => cases h : p a <;> simp [List.find?, h, Option.orElse]
  | cons b t ih =>
    simp only [List.cons_append, List.find?]
    cases h : p b <;> simp [h, ih, Option.orElse]

lemma find?_eq_none_of_count_zero (l : List SessionRow) (u s : String)
    (h : (l.filter (keyP u s)).length = 0) : l.find? (keyP u s) = none := by
  rw [List.find?_eq_none]
  intro a ha hpa
  have hmem : a ∈ l.filter (keyP u s) := List.mem_filter.mpr ⟨ha, hpa⟩
  have := List.length_pos_of_mem hmem
  omega

lemma find?_isSome_of_count_pos (l : List SessionRow) (u s : String)
    (h : 0 < (l.filter (keyP u s)).length) : ∃ r, l.find? (keyP u s) = some r := by
  have hne : l.filter (keyP u s) ≠ [] := by
    intro he; rw [he] at h; simp at h
  rcases List.exists_mem_of_ne_nil _ hne with ⟨r, hr⟩
  have hm := List.mem_filter.mp hr
  have : (l.find? (keyP u s)).isSome := List.find?_isSome.mpr ⟨r, hm.1, hm.2⟩
  exact Option.isSome_iff_exists.mp this

lemma rowCount_ensure (st : ServerState) (uid sid : String) (now : Int) (u s : String) :
    rowCount (ensureSessionFolder st uid sid now) u s
      = rowCount st u s + (if (uid, sid) ∉ st.sessionFolders ∧ u = uid ∧ s = sid then 1 else 0) := by
  by_cases hmem : (uid, sid) ∈ st.sessionFolders
  · simp [ensureSessionFolder, hmem]
  · simp only [ensureSessionFolder, if_neg hmem, rowCount, List.filter_append,
      List.length_append, hmem, not_false_iff, true_and]
    by_cases hu : u = uid
    · by_cases hs : s = sid
      · subst hu; subst hs; simp [keyP]
      · have hs' : ¬ sid = s := fun he => hs he.symm
        subst hu; simp [keyP, hs, hs']
    · have hu' : ¬ uid = u := fun he => hu he.symm
      simp [keyP, hu, hu']

lemma folders_ensure (st : ServerState) (uid sid : String) (now : Int) :
    (ensureSessionFolder st uid sid now).sessionFolders
      = if (uid, sid) ∈ st.sessionFolders then st.sessionFolders
        else (uid, sid) :: st.sessionFolders := by
  unfold ensureSessionFolder; split <;> rfl

lemma mem_folders_ensure (st : ServerState) (uid sid : String) (now : Int) :
    (uid, sid) ∈ (ensureSessionFolder st uid sid now).sessionFolders := by
  rw [folders_ensure]; split <;> simp [*]

lemma sessInv_ensure {st : ServerState} (h : SessInv st) (uid sid : String) (now : Int) :
    SessInv (ensureSessionFolder st uid sid now) := by
  by_cases hmem : (uid, sid) ∈ st.sessionFolders
  · simpa [ensureSessionFolder, hmem] using h
  · refine ⟨?_, ?_, ?_, ?_, ?_⟩
    · intro u s
      rw [rowCount_ensure]
      by_cases hk : u = uid ∧ s = sid
      · rcases hk with ⟨rfl, rfl⟩
        have h0 : rowCount st u s = 0 := by
          have hnot : ¬ 0 < rowCount st u s := fun hpos => hmem ((h.folder_iff u s).mpr hpos)
          omega
        rw [if_pos ⟨hmem, rfl, rfl⟩, h0]
      · rw [if_neg (fun hc => hk hc.2)]
        simpa using h.le_one u s
    · intro u s
      rw [rowCount_ensure, folders_ensure, if_neg hmem]
      by_cases hk : u = uid ∧ s = sid
      · rcases hk with ⟨rfl, rfl⟩
        simp [hmem]
      · have hne : (u, s) ≠ (uid, sid) := by
          intro he; exact hk ⟨congrArg Prod.fst he, congrArg Prod.snd he⟩
        rw [if_neg (fun hc => hk hc.2)]
        simp only [List.mem_cons, hne, false_or, Nat.add_zero]
        exact h.folder_iff u s
    · intro f hf
      have hf' : f ∈ st.files := by
        simpa [ensureSessionFolder, if_neg hmem] using hf
      rw [folders_ensure, if_neg hmem]
      exact List.mem_cons_of_mem _ (h.file_folder f hf')
    · intro f hf
      have hf' : f ∈ st.files := by
        simpa [ensureSessionFolder, if_neg hmem] using hf
      exact h.file_mov f hf'
    · intro p hp
      rw [folders_ensure, if_neg hmem] at hp
      simp only [ensureSessionFolder, if_neg hmem]
      rcases List.mem_cons.mp hp with rfl | hp'
      · by_cases hu : uid ∈ st.userFolders <;> simp [hu]
      · have := h.folder_user p hp'
        by_cases hu : uid ∈ st.userFolders <;> simp [hu, this]

lemma pyEndsWith_chunkFilename (cn ts : String) :
    pyEndsWith (chunkFilename cn ts) ".mov" = true := by
  apply decide_eq_true
  show (".mov").data <:+ _
  rw [chunkFilename, String.data_append]
  exact List.suffix_append _ _

lemma sessInv_save {st : ServerState} (h : SessInv st) (uid sid cn ts content : String)
    (hmem : (uid, sid) ∈ st.sessionFolders) :
    SessInv { st with files := saveChunkFile st.files uid sid (chunkFilename cn ts) content } := by
  refine ⟨h.le_one, h.folder_iff, ?_, ?_, h.folder_user⟩
  · intro f hf
    simp only [saveChunkFile, List.mem_append, List.mem_filter, List.mem_singleton] at hf
    rcases hf with ⟨hf', _⟩ | rfl
    · exact h.file_folder f hf'
    · exact hmem
  · intro f hf
    simp only [saveChunkFile, List.mem_append, List.mem_filter, List.mem_singleton] at hf
    rcases hf with ⟨hf', _⟩ | rfl
    · exact h.file_mov f hf'
    · exact pyEndsWith_chunkFilename cn ts

lemma rowCount_bump (st : ServerState) (uid sid cn : String) (u s : String) :
    rowCount (bumpChunkCount st uid sid cn) u s = rowCount st u s := by
  unfold bumpChunkCount
  cases hp : pyStrToInt cn with
  | none => rfl
  | some i => simp [rowCount, length_filter_map_updChunk]

lemma sessInv_bump {st : ServerState} (h : SessInv st) (uid sid cn : String) :
    SessInv (bumpChunkCount st uid sid cn) := by
  unfold bumpChunkCount
  cases hp : pyStrToInt cn with
  | none => exact h
  | some i =>
    refine ⟨?_, ?_, h.file_folder, h.file_mov, h.folder_user⟩
    · intro u s
      have := h.le_one u s
      simpa [rowCount, length_filter_map_updChunk] using this
    · intro u s
      have := h.folder_iff u s
      simpa [rowCount, length_filter_map_updChunk] using this

lemma sessInv_recordChunk {st : ServerState} (h : SessInv st)
    (uid sid cn ts content : String) (now : Int) (writeOk : Bool) :
    SessInv (recordChunk st uid sid cn ts content now writeOk).2 := by
  unfold recordChunk
  cases writeOk with
  | false => exact sessInv_ensure h uid sid now
  | true =>
    simp only [if_true]
    exact sessInv_bump
      (sessInv_save (sessInv_ensure h uid sid now) uid sid cn ts content
        (mem_folders_ensure st uid sid now)) uid sid cn

lemma sessInv_delete {st : ServerState} (h : SessInv st) (uid sid : String) (rmOk : Bool) :
    SessInv (deleteVideo st uid sid rmOk).2 := by
  unfold deleteVideo
  by_cases hmem : (uid, sid) ∈ st.sessionFolders
  · cases rmOk with
    | false => simpa [hmem] using h
    | true =>
      simp only [hmem, if_true]
      have hcount : ∀ u s,
          ((st.sessions.filter (fun r => !(keyP uid sid r))).filter (keyP u s)).length
            = if u = uid ∧ s = sid then 0 else rowCount st u s := by
        intro u s
        by_cases hk : u = uid ∧ s = sid
        · rcases hk with ⟨rfl, rfl⟩
          rw [if_pos ⟨rfl, rfl⟩]
          rw [List.length_eq_zero]
          apply List.filter_eq_nil_iff.mpr
          intro r hr
          have hr' := List.mem_filter.mp hr
          simp only [Bool.not_eq_true'] at hr'
          rw [hr'.2]
          simp
        · rw [if_neg hk]
          unfold rowCount
          rw [List.filter_comm]
          congr 1
          apply List.filter_eq_self.mpr
          intro r hr
          have hkey := List.mem_filter.mp hr
          have h1 : r.user_id = u := by
            have := hkey.2
            simp only [keyP, Bool.and_eq_true, beq_iff_eq] at this
            exact this.1
          have h2 : r.session_id = s := by
            have := hkey.2
            simp only [keyP, Bool.and_eq_true, beq_iff_eq] at this
            exact this.2
          have : keyP uid sid r = false := by
            simp only [keyP, Bool.and_eq_false_iff, beq_eq_false_iff_ne, ne_eq]
            by_cases hu : u = uid
            · right; intro he; exact hk ⟨hu, by rw [← h2, he]⟩
            · left; intro he; exact hu (by rw [← h1, he])
          simp [this]
      refine ⟨?_, ?_, ?_, ?_, ?_⟩
      · intro u s
        show ((st.sessions.filter _).filter (keyP u s)).length ≤ 1
        rw [hcount]
        split
        · omega
        · exact h.le_one u s
      · intro u s
        show (u, s) ∈ st.sessionFolders.filter _ ↔
          0 < ((st.sessions.filter _).filter (keyP u s)).length
        rw [hcount]
        by_cases hk : u = uid ∧ s = sid
        · rcases hk with ⟨rfl, rfl⟩
          rw [if_pos ⟨rfl, rfl⟩]
          simp
        · rw [if_neg hk]
          have hne : (u, s) ≠ (uid, sid) := by
            intro he; exact hk ⟨congrArg Prod.fst he, congrArg Prod.snd he⟩
          rw [List.mem_filter]
          constructor
          · intro ⟨hin, _⟩; exact (h.folder_iff u s).mp hin
          · intro hpos
            refine ⟨(h.folder_iff u s).mpr hpos, ?_⟩
            simp [hne]
      · intro f hf
        have hf' := List.mem_filter.mp hf
        have hmov := hf'.2
        simp only [Bool.not_eq_true', Bool.and_eq_false_iff, beq_eq_false_iff_ne, ne_eq] at hmov
        rw [List.mem_filter]
        refine ⟨h.file_folder f hf'.1, ?_⟩
        have : (f.user_id, f.session_id) ≠ (uid, sid) := by
          intro he
          rcases hmov with hbad | hbad
          · exact hbad (congrArg Prod.fst he)
          · exact hbad (congrArg Prod.snd he)
        simp [this]
      · intro f hf
        exact h.file_mov f (List.mem_filter.mp hf).1
      · intro p hp
        exact h.folder_user p (List.mem_filter.mp hp).1
  · simpa [hmem] using h

lemma sessInv_init (users : List User) (ufolders : List String) :
    SessInv ⟨users, [], ufolders, [], []⟩ := by
  refine ⟨?_, ?_, ?_, ?_, ?_⟩ <;> simp [rowCount]

/-- Every reachable state of the session subsystem satisfies the invariant. -/
lemma reachable_sessInv {st : ServerState} (h : Reachable st) : SessInv st := by
  induction h with
  | init users ufolders => exact sessInv_init users ufolders
  | upload uid sid cn ts content now writeOk _ ih =>
    exact sessInv_recordChunk ih uid sid cn ts content now writeOk
  | delete uid sid rmOk _ ih => exact sessInv_delete ih uid sid rmOk

lemma rowCount_setFiles (st : ServerState) (fs : List ChunkFile) (u s : String) :
    rowCount { st with files := fs } u s = rowCount st u s := rfl

lemma dbChunkCount_setFiles (st : ServerState) (fs : List ChunkFile) (u s : String) :
    dbChunkCount { st with files := fs } u s = dbChunkCount st u s := rfl

lemma rowCount_recordChunk (st : ServerState) (uid sid cn ts content : String) (now : Int)
    (writeOk : Bool) (u s : String) :
    rowCount (recordChunk st uid sid cn ts content now writeOk).2 u s
      = rowCount (ensureSessionFolder st uid sid now) u s := by
  unfold recordChunk
  cases writeOk with
  | false => rfl
  | true =>
    simp only [if_true]
    rw [rowCount_bump, rowCount_setFiles]

lemma dbChunkCount_ensure (st : ServerState) (uid sid : String) (now : Int) (u s : String) :
    dbChunkCount (ensureSessionFolder st uid sid now) u s = dbChunkCount st u s := by
  by_cases hmem : (uid, sid) ∈ st.sessionFolders
  · simp [ensureSessionFolder, hmem]
  · simp only [ensureSessionFolder, if_neg hmem, dbChunkCount]
    rw [find?_append_single]
    cases hf : st.sessions.find? (keyP u s) with
    | some r => simp [Option.orElse]
    | none =>
      simp only [Option.orElse, Option.none_orElse]
      cases hk : keyP u s (⟨uid, sid, now, 0⟩ : SessionRow) <;> simp [hk]

lemma dbChunkCount_bump_self (st : ServerState) (uid sid cn : String) (i : Int)
    (hp : pyStrToInt cn = some i) (hpos : 0 < rowCount st uid sid) :
    dbChunkCount (bumpChunkCount st uid sid cn) uid sid = max (dbChunkCount st uid sid) i := by
  obtain ⟨r, hr⟩ := find?_isSome_of_count_pos st.sessions uid sid hpos
  have hkr : keyP uid sid r = true := List.find?_some hr
  simp only [bumpChunkCount, hp, dbChunkCount, find?_map_updChunk, hr, Option.map_some']
  simp [updChunk, hkr]

lemma dbChunkCount_bump_other (st : ServerState) (uid sid cn : String) (u s : String)
    (hk : ¬(u = uid ∧ s = sid)) :
    dbChunkCount (bumpChunkCount st uid sid cn) u s = dbChunkCount st u s := by
  unfold bumpChunkCount
  cases hp : pyStrToInt cn with
  | none => rfl
  | some i =>
    simp only [dbChunkCount, find?_map_updChunk]
    cases hf : st.sessions.find? (keyP u s) with
    | none => simp
    | some r =>
      have hkr : keyP u s r = true := List.find?_some hf
      have hids : r.user_id = u ∧ r.session_id = s := by
        simpa [keyP, Bool.and_eq_true, beq_iff_eq] using hkr
      have hfalse : keyP uid sid r = false := by
        simp only [keyP, Bool.and_eq_false_iff, beq_eq_false_iff_ne, ne_eq]
        by_cases hu : u = uid
        · right; intro he; exact hk ⟨hu, by rw [← hids.2, he]⟩
        · left; intro he; exact hu (by rw [← hids.1, he])
      simp [updChunk, hfalse]

lemma rowCount_ensure_pos {st : ServerState} (h : SessInv st) (uid sid : String) (now : Int) :
    0 < rowCount (ensureSessionFolder st uid sid now) uid sid := by
  rw [rowCount_ensure]
  by_cases hmem : (uid, sid) ∈ st.sessionFolders
  · have := (h.folder_iff uid sid).mp hmem
    omega
  · simp [hmem]

/-- C3: in every reachable state the recording_sessions table holds at most
one row per (user_id, session_id); a first chunk upload for a pair with no
row creates exactly one row (whether or not the file write then succeeds),
and an upload for a pair that already has its row leaves exactly that one
row — create-or-get, never a second row. -/
theorem session_row_create_or_get (st : ServerState) (hst : Reachable st) :
    (∀ u s, rowCount st u s ≤ 1) ∧
    (∀ uid sid cn ts content now writeOk, rowCount st uid sid = 0 →
      rowCount (recordChunk st uid sid cn ts content now writeOk).2 uid sid = 1) ∧
    (∀ uid sid cn ts content now writeOk, rowCount st uid sid = 1 →
      rowCount (recordChunk st uid sid cn ts content now writeOk).2 uid sid = 1) := by
  have hinv := reachable_sessInv hst
  refine ⟨hinv.le_one, ?_, ?_⟩
  · intro uid sid cn ts content now writeOk h0
    rw [rowCount_recordChunk, rowCount_ensure]
    have hmem : (uid, sid) ∉ st.sessionFolders := by
      intro hm
      have := (hinv.folder_iff uid sid).mp hm
      omega
    rw [if_pos ⟨hmem, rfl, rfl⟩, h0]
  · intro uid sid cn ts content now writeOk h1
    rw [rowCount_recordChunk, rowCount_ensure]
    have hmem : (uid, sid) ∈ st.sessionFolders := (hinv.folder_iff uid sid).mpr (by omega)
    rw [if_neg (fun hc => hc.1 hmem), h1]

theorem session_row_create_or_get_witness :
    rowCount (recordChunk (recordChunk ⟨[], [], [], [], []⟩ "u" "s" "0" "t0" "c0" 0 true).2
        "u" "s" "1" "t1" "c1" 1 true).2 "u" "s" ≤ 1 :=
  (session_row_create_or_get _
    (Reachable.upload "u" "s" "1" "t1" "c1" 1 true
      (Reachable.upload "u" "s" "0" "t0" "c0" 0 true (Reachable.init [] [])))).1 "u" "s"

/-- C4: in a reachable state, a chunk upload whose file write succeeds
returns 200 and sets the session's persisted chunk_count to
max(previous value, chunk index) — out-of-order or gapped indices are
accepted and the counter never decreases — while an upload whose file
write fails returns the 500 failure and leaves every chunk_count as it
was. -/
theorem chunk_count_max_update (st : ServerState) (hst : Reachable st)
    (uid sid cn ts content : String) (now : Int) :
    (∀ i, pyStrToInt cn = some i →
      (recordChunk st uid sid cn ts content now true).1 = .ok (chunkFilename cn ts) sid cn ∧
      ∀ u s, dbChunkCount (recordChunk st uid sid cn ts content now true).2 u s
          = if u = uid ∧ s = sid then max (dbChunkCount st u s) i else dbChunkCount st u s) ∧
    ((recordChunk st uid sid cn ts content now false).1 = .ioFailure ∧
      ∀ u s, dbChunkCount (recordChunk st uid sid cn ts content now false).2 u s
          = dbChunkCount st u s) := by
  have hinv := reachable_sessInv hst
  refine ⟨?_, rfl, ?_⟩
  · intro i hp
    refine ⟨rfl, ?_⟩
    intro u s
    show dbChunkCount (bumpChunkCount
      { ensureSessionFolder st uid sid now with
        files := saveChunkFile (ensureSessionFolder st uid sid now).files uid sid
          (chunkFilename cn ts) content } uid sid cn) u s = _
    by_cases hk : u = uid ∧ s = sid
    · rcases hk with ⟨rfl, rfl⟩
      rw [if_pos ⟨rfl, rfl⟩]
      have hpos : 0 < rowCount
          { ensureSessionFolder st u s now with
            files := saveChunkFile (ensureSessionFolder st u s now).files u s
              (chunkFilename cn ts) content } u s := by
        rw [rowCount_setFiles]
        exact rowCount_ensure_pos hinv u s now
      rw [dbChunkCount_bump_self _ _ _ _ i hp hpos, dbChunkCount_setFiles,
        dbChunkCount_ensure]
    · rw [if_neg hk, dbChunkCount_bump_other _ _ _ _ _ _ hk, dbChunkCount_setFiles,
        dbChunkCount_ensure]
  · intro u s
    show dbChunkCount (ensureSessionFolder st uid sid now) u s = _
    exact dbChunkCount_ensure st uid sid now u s

theorem chunk_count_max_update_witness :
    dbChunkCount (recordChunk ⟨[], [], [], [], []⟩ "u" "s" "2" "t" "c" 0 true).2 "u" "s" = 2 := by
  have h := ((chunk_count_max_update ⟨[], [], [], [], []⟩ (Reachable.init [] [])
    "u" "s" "2" "t" "c" 0).1 2 (by decide)).2 "u" "s"
  rw [h]
  decide

/-- C6: deleting a session whose directory exists removes its chunk files
and then all its rows, a failed file removal aborts before the row delete
and leaves the state (and so the row) intact for a retry, and a repeated
delete of the same session for the same user returns NotFound; a delete for
a session with no directory returns NotFound and changes nothing. -/
theorem delete_session_spec (st : ServerState) (uid sid : String) :
    ((uid, sid) ∈ st.sessionFolders →
      deleteVideo st uid sid false = (.serverError, st) ∧
      (deleteVideo st uid sid true).1 = .ok ∧
      (∀ f ∈ (deleteVideo st uid sid true).2.files, ¬(f.user_id = uid ∧ f.session_id = sid)) ∧
      rowCount (deleteVideo st uid sid true).2 uid sid = 0 ∧
      (∀ rmOk2, deleteVideo (deleteVideo st uid sid true).2 uid sid rmOk2
          = (.notFound, (deleteVideo st uid sid true).2))) ∧
    ((uid, sid) ∉ st.sessionFolders → ∀ rmOk, deleteVideo st uid sid rmOk = (.notFound, st)) := by
  have hgen : ∀ (Y : ServerState) (rmOk : Bool), (uid, sid) ∉ Y.sessionFolders →
      deleteVideo Y uid sid rmOk = (.notFound, Y) := by
    intro Y rmOk hm
    simp [deleteVideo, hm]
  constructor
  · intro hmem
    refine ⟨by simp [deleteVideo, hmem], by simp [deleteVideo, hmem], ?_, ?_, ?_⟩
    · intro f hf
      simp only [deleteVideo, hmem, if_true] at hf
      have hcond := (List.mem_filter.mp hf).2
      simp only [Bool.not_eq_true', Bool.and_eq_false_iff, beq_eq_false_iff_ne, ne_eq] at hcond
      rintro ⟨h1, h2⟩
      rcases hcond with hbad | hbad
      · exact hbad h1
      · exact hbad h2
    · simp only [deleteVideo, hmem, if_true, rowCount]
      rw [List.length_eq_zero]
      apply List.filter_eq_nil_iff.mpr
      intro r hr
      have hcond := (List.mem_filter.mp hr).2
      simp only [Bool.not_eq_true'] at hcond
      simp [hcond]
    · intro rmOk2
      apply hgen
      simp only [deleteVideo, hmem, if_true]
      intro hin
      have := (List.mem_filter.mp hin).2
      simp at this
  · intro hmem rmOk
    exact hgen st rmOk hmem

theorem delete_session_spec_witness :
    (deleteVideo ⟨[], [⟨"u", "s", 0, 3⟩], ["u"], [("u", "s")], []⟩ "u" "s" true).1
      = DeleteResult.ok :=
  ((delete_session_spec ⟨[], [⟨"u", "s", 0, 3⟩], ["u"], [("u", "s")], []⟩ "u" "s").1
    (by decide)).2.1

/- ------------------------------------------------------------------
Storage quota calculation (get_storage_limit_for_tier, the accounting
loop of get_storage_info) and the unauthenticated chunk download. -/

/-- get_storage_limit_for_tier: the limits dict with free as the default. -/
def get_storage_limit_for_tier (tier : String) : Nat :=
  if tier == "free" then 20 * 60
  else if tier == "premium" then 20 * 60 * 60
  else if tier == "pro" then 200 * 60 * 60
  else 20 * 60

/-- SELECT session_id FROM recording_sessions WHERE user_id = ?. -/
def sessionsOf (st : ServerState) (uid : String) : List SessionRow :=
  st.sessions.filter (fun r => r.user_id == uid)

/-- The .mov files the accounting loop sees in one session directory. -/
def sessionMovFiles (st : ServerState) (uid sid : String) : List ChunkFile :=
  st.files.filter (fun f =>
    f.user_id == uid && f.session_id == sid && pyEndsWith f.filename ".mov")

/-- total_storage_seconds of get_storage_info: if the user directory
exists, sum len(video_files) * 15 over the user's session rows whose
directory exists; otherwise 0. -/
def totalStorageSeconds (st : ServerState) (uid : String) : Nat :=
  if uid ∈ st.userFolders then
    ((sessionsOf st uid).map (fun r =>
      if (uid, r.session_id) ∈ st.sessionFolders then
        (sessionMovFiles st uid r.session_id).length * 15
      else 0)).sum
  else 0

/-- storage_percentage of get_storage_info, over exact rationals:
min((used / limit) * 100, 100) when the limit is positive, else 0. -/
def storagePercentage (used limit : ℚ) : ℚ :=
  if 0 < limit then min (used / limit * 100) 100 else 0

/-- All chunk files stored for one user, across every session. -/
def userFileCount (st : ServerState) (uid : String) : Nat :=
  (st.files.filter (fun f => f.user_id == uid)).length

lemma sum_map_ite_one {β : Type} (F : List β) (q : β → Bool) :
    (F.map fun b => if q b then (1 : Nat) else 0).sum = (F.filter q).length := by
  induction F with
  | nil => rfl
  | cons a t ih => cases h : q a <;> simp [List.filter_cons, h, ih, Nat.add_comm]

lemma sum_map_length_filter_swap {α β : Type} (L : List α) (F : List β) (p : α → β → Bool) :
    (L.map fun a => (F.filter (p a)).length).sum
      = (F.map fun b => (L.filter fun a => p a b).length).sum := by
  induction L with
  | nil => simp
  | cons a L ih =>
    simp only [List.map_cons, List.sum_cons, ih]
    have hsplit : (F.map fun b => (List.filter (fun x => p x b) (a :: L)).length)
        = F.map fun b => (if p a b then 1 else 0) + (L.filter fun x => p x b).length := by
      apply List.map_congr_left
      intro b _
      rw [List.filter_cons]
      cases h : p a b
      · simp [h]
      · simp only [h, if_true, List.length_cons]
        omega
    rw [hsplit, List.sum_map_add, sum_map_ite_one]

/-- C5: the tier limits are free to 1200 s, premium to 72000 s, pro to
720000 s, any unrecognized tier falling back to free's 1200 s; in a
reachable state the computed usage is the user's total stored chunk-file
count times the 15-second per-chunk estimate; and with a positive limit
the reported percentage is min(usage / limit * 100, 100). -/
theorem storage_quota_spec :
    (get_storage_limit_for_tier "free" = 1200 ∧
     get_storage_limit_for_tier "premium" = 72000 ∧
     get_storage_limit_for_tier "pro" = 720000 ∧
     ∀ t : String, t ≠ "free" → t ≠ "premium" → t ≠ "pro" →
       get_storage_limit_for_tier t = 1200) ∧
    (∀ st uid, Reachable st → totalStorageSeconds st uid = userFileCount st uid * 15) ∧
    (∀ used limit : ℚ, 0 < limit →
      storagePercentage used limit = min (used / limit * 100) 100) := by
  refine ⟨⟨rfl, rfl, rfl, ?_⟩, ?_, ?_⟩
  · intro t h1 h2 h3
    simp [get_storage_limit_for_tier, h1, h2, h3]
  · intro st uid hst
    have hinv := reachable_sessInv hst
    by_cases hu : uid ∈ st.userFolders
    · simp only [totalStorageSeconds, if_pos hu]
      have hstep1 : ((sessionsOf st uid).map (fun r =>
          if (uid, r.session_id) ∈ st.sessionFolders then
            (sessionMovFiles st uid r.session_id).length * 15
          else 0))
          = (sessionsOf st uid).map (fun r =>
            (st.files.filter (fun f =>
              f.user_id == uid && f.session_id == r.session_id)).length * 15) := by
        apply List.map_congr_left
        intro r hr
        have hrmem := List.mem_filter.mp hr
        have hruid : r.user_id = uid := by simpa using hrmem.2
        have hpos : 0 < rowCount st uid r.session_id := by
          apply List.length_pos_of_mem (a := r)
          apply List.mem_filter.mpr
          exact ⟨hrmem.1, by simp [keyP, hruid]⟩
        rw [if_pos ((hinv.folder_iff uid r.session_id).mpr hpos)]
        congr 2
        apply List.filter_congr
        intro f hf
        simp [hinv.file_mov f hf]
      rw [hstep1]
      have hstep2 : ((sessionsOf st uid).map (fun r =>
          (st.files.filter (fun f =>
            f.user_id == uid && f.session_id == r.session_id)).length * 15)).sum
          = ((sessionsOf st uid).map (fun r =>
            (st.files.filter (fun f =>
              f.user_id == uid && f.session_id == r.session_id)).length)).sum * 15 := by
        rw [← List.sum_map_mul_right]
      rw [hstep2, sum_map_length_filter_swap]
      have hstep3 : (st.files.map fun f =>
          ((sessionsOf st uid).filter fun r =>
            f.user_id == uid && f.session_id == r.session_id).length)
          = st.files.map fun f => if f.user_id == uid then 1 else 0 := by
        apply List.map_congr_left
        intro f hf
        by_cases hfu : f.user_id = uid
        · rw [if_pos (by simp [hfu])]
          have hpred : ((sessionsOf st uid).filter fun r =>
              f.user_id == uid && f.session_id == r.session_id)
              = (sessionsOf st uid).filter fun r => keyP uid f.session_id r := by
            apply List.filter_congr
            intro r hr
            have hruid : r.user_id = uid := by
              simpa using (List.mem_filter.mp hr).2
            simp [keyP, hfu, hruid, eq_comm]
          rw [hpred]
          have hcomb : ((sessionsOf st uid).filter fun r => keyP uid f.session_id r)
              = st.sessions.filter (keyP uid f.session_id) := by
            unfold sessionsOf
            rw [List.filter_filter]
            apply List.filter_congr
            intro r _
            simp only [keyP, Bool.and_eq_true, beq_iff_eq]
            by_cases h1 : r.user_id = uid <;> by_cases h2 : r.session_id = f.session_id <;>
              simp [h1, h2]
          rw [hcomb]
          have hfolder : (f.user_id, f.session_id) ∈ st.sessionFolders :=
            hinv.file_folder f hf
          rw [hfu] at hfolder
          have hpos := (hinv.folder_iff uid f.session_id).mp hfolder
          have hle := hinv.le_one uid f.session_id
          unfold rowCount at hpos hle
          omega
        · rw [if_neg (by simp [hfu])]
          have : ((sessionsOf st uid).filter fun r =>
              f.user_id == uid && f.session_id == r.session_id) = [] := by
            apply List.filter_eq_nil_iff.mpr
            intro r _
            simp [hfu]
          simp [this]
      rw [hstep3, sum_map_ite_one]
      rfl
    · simp only [totalStorageSeconds, if_neg hu]
      have : userFileCount st uid = 0 := by
        unfold userFileCount
        rw [List.length_eq_zero]
        apply List.filter_eq_nil_iff.mpr
        intro f hf
        simp only [beq_iff_eq]
        intro hfu
        apply hu
        have := hinv.folder_user _ (hinv.file_folder f hf)
        rwa [hfu] at this
      rw [this]
  · intro used limit hlim
    simp [storagePercentage, hlim]

theorem storage_quota_spec_witness :
    totalStorageSeconds (recordChunk ⟨[], [], [], [], []⟩ "u" "s" "0" "t" "c" 0 true).2 "u"
        = userFileCount (recordChunk ⟨[], [], [], [], []⟩ "u" "s" "0" "t" "c" 0 true).2 "u" * 15 ∧
    storagePercentage 90 1200 = min ((90 : ℚ) / 1200 * 100) 100 :=
  ⟨storage_quota_spec.2.1 _ "u" (Reachable.upload "u" "s" "0" "t" "c" 0 true (Reachable.init [] [])),
   storage_quota_spec.2.2 90 1200 (by norm_num)⟩

inductive DownloadResult where
  /-- 200: the streamed file content with its Content-Length. -/
  | found (content : String) (size : Nat)
  /-- 404: no file at that path. -/
  | notFound
  deriving DecidableEq

/-- The os.path lookup download_chunk performs: the file stored at
UPLOAD_FOLDER/user_id/session_id/filename, if any. -/
def lookupChunk (files : List ChunkFile) (uid sid fn : String) : Option String :=
  (files.find? (fun f =>
    f.user_id == uid && f.session_id == sid && f.filename == fn)).map (fun f => f.content)

/-- download_chunk: its inputs are exactly the three path components — it
takes no email, no password and no session token, and consults only the
file store, never the users table. -/
def download_chunk (files : List ChunkFile) (uid sid fn : String) : DownloadResult :=
  match lookupChunk files uid sid fn with
  | some c => .found c c.length
  | none => .notFound

/-- C10: download_chunk performs no credential check — by construction it
has no authentication input at all — and for every (user_id, session_id,
filename) naming a stored chunk it hands the chunk content to the caller;
only a missing file yields NotFound. -/
theorem download_chunk_no_auth (files : List ChunkFile) (uid sid fn : String) :
    (∀ c, lookupChunk files uid sid fn = some c →
      download_chunk files uid sid fn = .found c c.length) ∧
    (lookupChunk files uid sid fn = none → download_chunk files uid sid fn = .notFound) := by
  constructor
  · intro c hc
    simp [download_chunk, hc]
  · intro hc
    simp [download_chunk, hc]

theorem download_chunk_no_auth_witness :
    download_chunk [⟨"u", "s", "chunk_000_t.mov", "DATA"⟩] "u" "s" "chunk_000_t.mov"
      = .found "DATA" 4 :=
  (download_chunk_no_auth [⟨"u", "s", "chunk_000_t.mov", "DATA"⟩] "u" "s" "chunk_000_t.mov").1
    "DATA" (by decide)

/- ------------------------------------------------------------------
Legacy PIN migration (migrate_pin_user): the archived backup tables and
the one-time bridge into the current users table. -/

structure OldUser where
  user_id : String
  pin_hash : String
  salt : String
  deriving DecidableEq

/-- The tables migrate_pin_user reads and writes: the current users and
recording_sessions tables plus the archived backup tables (whose presence
in sqlite_master is a separate fact from their contents). -/
structure MigState where
  users : List User
  sessions : List SessionRow
  hasUserBackup : Bool
  oldUsers : List OldUser
  hasSessionBackup : Bool
  oldSessions : List SessionRow
  deriving DecidableEq

inductive MigrateResult where
  /-- 400: a required field is missing. -/
  | invalidInput
  /-- 404: no backup table, or no archived record matches the pin. -/
  | notFound (msg : String)
  /-- 400: the target email is already registered. -/
  | emailTaken
  /-- 500: the INSERT violated a constraint; nothing was committed. -/
  | serverError
  /-- 201 with the preserved legacy user_id. -/
  | ok (user_id : String)
  deriving DecidableEq

/-- The linear scan over users_old_pin_backup, recomputing the legacy
digest per record until one matches the submitted pin. -/
def findPinMatch (kdf : String → String → String) (oldUsers : List OldUser)
    (pin : String) : Option OldUser :=
  oldUsers.find? (fun ou => kdf pin ou.salt == ou.pin_hash)

/-- migrate_pin_user: validate inputs, require the backup table, scan for
the pin, reject an already-registered email, then insert the new credential
row reusing the legacy user_id and copy that identifier's legacy session
rows.  A user_id collision on INSERT raises IntegrityError, which the
handler surfaces as a 500 with nothing committed. -/
def migrate_pin_user (kdf : String → String → String) (st : MigState)
    (pin email password full_name newSalt : String) (now : Int) :
    MigrateResult × MigState :=
  let emailL := pyLower email
  if pin == "" || emailL == "" || password == "" || full_name == "" then (.invalidInput, st)
  else if !st.hasUserBackup then (.notFound "No PIN-based accounts found to migrate", st)
  else
    match findPinMatch kdf st.oldUsers pin with
    | none => (.notFound "PIN not found in system", st)
    | some ou =>
      if st.users.any (fun u => u.email == emailL) then (.emailTaken, st)
      else if st.users.any (fun u => u.user_id == ou.user_id) then (.serverError, st)
      else
        (.ok ou.user_id,
         { st with
           users := st.users ++
             [⟨ou.user_id, emailL, full_name, (hash_password kdf password newSalt).1,
               newSalt, now, "free"⟩],
           sessions := st.sessions ++
             (if st.hasSessionBackup then
               st.oldSessions.filter (fun r => r.user_id == ou.user_id)
             else []) })

/-- C7: a pin matching no archived record makes migrate_pin_user return
NotFound with the whole state — in particular the users table — unchanged;
a matching pin whose target email is already registered returns the
conflict with both the current users table and the archived records
unchanged; and a successful migration appends exactly one credential row
reusing the legacy user_id and appends that identifier's legacy session
rows, touching nothing else. -/
theorem migrate_pin_spec (kdf : String → String → String) (st : MigState)
    (pin email password full_name newSalt : String) (now : Int)
    (hpin : pin ≠ "") (hml : pyLower email ≠ "") (hpw : password ≠ "") (hfn : full_name ≠ "")
    (hbk : st.hasUserBackup = true) :
    (findPinMatch kdf st.oldUsers pin = none →
      migrate_pin_user kdf st pin email password full_name newSalt now
        = (.notFound "PIN not found in system", st)) ∧
    (∀ ou, findPinMatch kdf st.oldUsers pin = some ou →
      (∃ u ∈ st.users, u.email = pyLower email) →
      migrate_pin_user kdf st pin email password full_name newSalt now = (.emailTaken, st)) ∧
    (∀ ou, findPinMatch kdf st.oldUsers pin = some ou →
      (∀ u ∈ st.users, u.email ≠ pyLower email) →
      (∀ u ∈ st.users, u.user_id ≠ ou.user_id) →
      migrate_pin_user kdf st pin email password full_name newSalt now
        = (.ok ou.user_id,
           { st with
             users := st.users ++
               [⟨ou.user_id, pyLower email, full_name,
                 (hash_password kdf password newSalt).1, newSalt, now, "free"⟩],
             sessions := st.sessions ++
               (if st.hasSessionBackup then
                 st.oldSessions.filter (fun r => r.user_id == ou.user_id)
               else []) })) := by
  have hcond : (pin == "" || pyLower email == "" || password == "" || full_name == "")
      = false := by
    simp [hpin, hml, hpw, hfn]
  refine ⟨?_, ?_, ?_⟩
  · intro hnone
    simp [migrate_pin_user, hcond, hbk, hnone]
  · intro ou hsome hex
    have hany : st.users.any (fun u => u.email == pyLower email) = true := by
      rw [List.any_eq_true]
      rcases hex with ⟨u, hu, he⟩
      exact ⟨u, hu, by simp [he]⟩
    simp [migrate_pin_user, hcond, hbk, hsome, hany]
  · intro ou hsome hnoemail hnoid
    have hany1 : st.users.any (fun u => u.email == pyLower email) = false := by
      rw [List.any_eq_false]
      intro u hu
      simp [hnoemail u hu]
    have hany2 : st.users.any (fun u => u.user_id == ou.user_id) = false := by
      rw [List.any_eq_false]
      intro u hu
      simp [hnoid u hu]
    simp [migrate_pin_user, hcond, hbk, hsome, hany1, hany2]

theorem migrate_pin_spec_witness :
    (migrate_pin_user concatKdf
        ⟨[], [], true, [⟨"legacy1", "123456osalt", "osalt"⟩], true, [⟨"legacy1", "sessA", 0, 3⟩]⟩
        "123456" "new@x.com" "654321" "New Name" "nsalt" 5).1
      = .ok "legacy1" := by
  have h := (migrate_pin_spec concatKdf
      ⟨[], [], true, [⟨"legacy1", "123456osalt", "osalt"⟩], true, [⟨"legacy1", "sessA", 0, 3⟩]⟩
      "123456" "new@x.com" "654321" "New Name" "nsalt" 5
      (by decide) (by decide) (by decide) (by decide) (by decide)).2.2
      ⟨"legacy1", "123456osalt", "osalt"⟩ (by decide) (by simp) (by simp)
  rw [h]
